import Mathlib

/-!
Shallow embedding of the "Projeto Bó" voice-reactive game
(src/App.tsx, src/types.ts, src/components/BoVisualizer.tsx).

JavaScript numbers are modelled as exact rationals (ℚ) for audio samples and
particle fields, and as integers (ℤ / ℕ) for scores, combos, timestamps,
counts and indices, all of which stay far below 2^53 in the program.
-/

/-! ## Game state (src/types.ts `GameState`, src/App.tsx) -/

structure GameState where
  score : ℤ
  combo : ℤ
  maxCombo : ℤ
  lastBoTime : ℤ
deriving DecidableEq

/-- Initial state from `useState<GameState>({score: 0, combo: 1, maxCombo: 1,
lastBoTime: 0})` in src/App.tsx lines 13–18. -/
def initialGameState : GameState :=
  { score := 0, combo := 1, maxCombo := 1, lastBoTime := 0 }

/-- The state-transition part of `triggerBo` (src/App.tsx lines 35–50):
the `setGameState` updater applied to the previous state, with `count` the
number of regex matches and `now` the value of `Date.now()`. -/
def triggerBoState (prev : GameState) (count : ℕ) (now : ℤ) : GameState :=
  let newCombo : ℤ := if now - prev.lastBoTime < 2000 then prev.combo + count else 1
  let points : ℤ := count * 100 * newCombo
  { score := prev.score + points
    combo := newCombo
    maxCombo := max prev.maxCombo newCombo
    lastBoTime := now }

/-- The invariant on `GameState` claimed by the spec's data model. -/
def GameStateInv (s : GameState) : Prop :=
  0 ≤ s.score ∧ 1 ≤ s.combo ∧ 1 ≤ s.maxCombo

/-- C1: for every state with combo ≥ 1 and every matchCount ≥ 1 and time `now`,
`triggerBo` yields combo' = combo + count when `now - lastBoTime < 2000` and
combo' = 1 otherwise (`count` discarded in the reset branch); points =
count * 100 * combo'; score' = score + points; maxCombo' = max maxCombo combo';
lastBoTime' = now. -/
theorem triggerBo_state_update (prev : GameState) (count : ℕ) (now : ℤ)
    (hcombo : 1 ≤ prev.combo) (hcount : 1 ≤ count) :
    ((now - prev.lastBoTime < 2000 →
        (triggerBoState prev count now).combo = prev.combo + count) ∧
      (¬ (now - prev.lastBoTime < 2000) →
        (triggerBoState prev count now).combo = 1)) ∧
    (triggerBoState prev count now).score =
      prev.score + count * 100 * (triggerBoState prev count now).combo ∧
    (triggerBoState prev count now).maxCombo =
      max prev.maxCombo (triggerBoState prev count now).combo ∧
    (triggerBoState prev count now).lastBoTime = now := by
  unfold triggerBoState
  by_cases h : now - prev.lastBoTime < 2000 <;> simp [h]

/-- Witness for C1 at a concrete input: state with combo 2, count 3, now 1000
(inside the 2000 ms window, so the combo continues). -/
theorem triggerBo_state_update_witness :
    (triggerBoState { score := 7, combo := 2, maxCombo := 2, lastBoTime := 0 } 3 1000).combo =
      ({ score := 7, combo := 2, maxCombo := 2, lastBoTime := 0 } : GameState).combo + (3 : ℕ) ∧
    (triggerBoState { score := 7, combo := 2, maxCombo := 2, lastBoTime := 0 } 3 1000).score =
      7 + 3 * 100 *
        (triggerBoState { score := 7, combo := 2, maxCombo := 2, lastBoTime := 0 } 3 1000).combo ∧
    (triggerBoState { score := 7, combo := 2, maxCombo := 2, lastBoTime := 0 } 3 1000).lastBoTime
      = 1000 :=
  ⟨(triggerBo_state_update { score := 7, combo := 2, maxCombo := 2, lastBoTime := 0 } 3 1000
      (by decide) (by decide)).1.1 (by decide),
   (triggerBo_state_update { score := 7, combo := 2, maxCombo := 2, lastBoTime := 0 } 3 1000
      (by decide) (by decide)).2.1,
   (triggerBo_state_update { score := 7, combo := 2, maxCombo := 2, lastBoTime := 0 } 3 1000
      (by decide) (by decide)).2.2.2⟩

/-- C9: the invariant score ≥ 0 ∧ combo ≥ 1 ∧ maxCombo ≥ 1 holds initially and
is preserved by every trigger call with matchCount ≥ 1. -/
theorem gameState_invariant :
    GameStateInv initialGameState ∧
    ∀ (s : GameState) (count : ℕ) (now : ℤ), 1 ≤ count → GameStateInv s →
      GameStateInv (triggerBoState s count now) := by
  constructor
  · exact ⟨le_refl 0, le_refl 1, le_refl 1⟩
  · intro s count now hcount ⟨hscore, hcombo, hmax⟩
    have hc : (1 : ℤ) ≤ (count : ℤ) := by exact_mod_cast hcount
    unfold triggerBoState GameStateInv
    by_cases h : now - s.lastBoTime < 2000
    · simp only [if_pos h]
      refine ⟨?_, by omega, le_trans hmax (le_max_left _ _)⟩
      have hpts : (0 : ℤ) ≤ (count : ℤ) * 100 * (s.combo + count) :=
        mul_nonneg (by positivity) (by omega)
      omega
    · simp only [if_neg h]
      refine ⟨?_, le_refl 1, le_trans hmax (le_max_left _ _)⟩
      have hpts : (0 : ℤ) ≤ (count : ℤ) * 100 * 1 := by positivity
      omega

/-- Witness for C9 at a concrete input: preservation at the initial state with
count 1, now 5000. -/
theorem gameState_invariant_witness :
    GameStateInv (triggerBoState initialGameState 1 5000) :=
  gameState_invariant.2 initialGameState 1 5000 (by decide)
    ⟨by decide, by decide, by decide⟩

/-- C5 counterexample: a trigger with matchCount 1 at t = 0 from the initial
state does NOT produce score 100 and combo 1: since `lastBoTime` starts at 0,
`0 - 0 < 2000` takes the combo-continuation branch, giving combo 2 and
score 200. -/
theorem c5_trigger_at_zero_counterexample :
    ¬ ((triggerBoState initialGameState 1 0).score = 100 ∧
        (triggerBoState initialGameState 1 0).combo = 1) := by
  decide

/-- C5 amended: starting from the initial state, a first trigger with
matchCount 1 at a time at least 2000 ms after the initial timestamp (t = 2000)
produces score 100 and combo 1, and a subsequent trigger with matchCount 2
500 ms later (t = 2500) continues the combo: newCombo = 1 + 2 = 3,
points = 2 * 100 * 3 = 600, score' = 700. -/
theorem c5_scoring_example_amended :
    (triggerBoState initialGameState 1 2000).score = 100 ∧
    (triggerBoState initialGameState 1 2000).combo = 1 ∧
    (triggerBoState (triggerBoState initialGameState 1 2000) 2 2500).combo = 1 + 2 ∧
    (triggerBoState (triggerBoState initialGameState 1 2000) 2 2500).score -
      (triggerBoState initialGameState 1 2000).score = 2 * 100 * 3 ∧
    (triggerBoState (triggerBoState initialGameState 1 2000) 2 2500).score = 700 := by
  decide

/-! ## Particles (src/types.ts `Particle`, src/components/BoVisualizer.tsx) -/

structure Particle where
  id : ℕ
  x : ℚ
  y : ℚ
  text : String
  vx : ℚ
  vy : ℚ
  rotation : ℚ
  vRotation : ℚ
  scale : ℚ
  color : String
  life : ℚ
  decay : ℚ
deriving DecidableEq

/-- The per-particle advance of `updateParticles`
(src/components/BoVisualizer.tsx lines 18–25): the object spread computes every
new field from the pre-tick particle `p`. -/
def advanceParticle (p : Particle) : Particle :=
  { p with
    x := p.x + p.vx
    y := p.y + p.vy
    vy := p.vy + 1/2
    rotation := p.rotation + p.vRotation
    life := p.life - p.decay }

/-- `updateParticles` from src/components/BoVisualizer.tsx lines 13–30: the
`setParticles` updater (early return on an empty population, then
map-advance and filter out particles with life ≤ 0). -/
def updateParticles (prevParticles : List Particle) : List Particle :=
  if prevParticles = [] then prevParticles
  else (prevParticles.map advanceParticle).filter (fun p => decide (0 < p.life))

/-- Shared helper: the empty-population early return of updateParticles is
immaterial, so a tick is always the map-then-filter. -/
theorem updateParticles_eq (l : List Particle) :
    updateParticles l =
      (l.map advanceParticle).filter (fun p => decide (0 < p.life)) := by
  unfold updateParticles
  by_cases h : l = []
  · subst h; simp
  · simp [h]

/-- C6: on every tick, every live particle is advanced with
x' = x + vx, y' = y + vy (pre-gravity velocity), vy' = vy + 0.5,
rotation' = rotation + vRotation, life' = life - decay, and every particle
whose resulting life is ≤ 0 is removed in that same tick. -/
theorem updateParticles_advance_and_retire (l : List Particle) :
    updateParticles l =
      (l.map (fun p =>
        { p with
          x := p.x + p.vx
          y := p.y + p.vy
          vy := p.vy + 1/2
          rotation := p.rotation + p.vRotation
          life := p.life - p.decay })).filter (fun p => decide (0 < p.life)) :=
  updateParticles_eq l

/-- The fields of a particle that a tick never touches: id, text, vx,
vRotation, scale, color, decay. -/
def frozenFields (p : Particle) : ℕ × String × ℚ × ℚ × ℚ × String × ℚ :=
  (p.id, p.text, p.vx, p.vRotation, p.scale, p.color, p.decay)

/-- C10: a tick changes only x, y, vy, rotation and life of each surviving
particle; id, text, vx, vRotation, scale, color and decay are unchanged; the
survivors (projected to their untouched fields) form a sublist of the input
population, so no particle is created and none is duplicated; an empty
population is returned unchanged. -/
theorem updateParticles_frame_effect :
    updateParticles [] = [] ∧
    (∀ l : List Particle,
      ((updateParticles l).map frozenFields).Sublist (l.map frozenFields)) ∧
    (∀ (l : List Particle) (q : Particle), q ∈ updateParticles l →
      ∃ p ∈ l, q.id = p.id ∧ q.text = p.text ∧ q.vx = p.vx ∧
        q.vRotation = p.vRotation ∧ q.scale = p.scale ∧ q.color = p.color ∧
        q.decay = p.decay ∧ q.x = p.x + p.vx ∧ q.y = p.y + p.vy ∧
        q.vy = p.vy + 1/2 ∧ q.rotation = p.rotation + p.vRotation ∧
        q.life = p.life - p.decay) := by
  refine ⟨rfl, ?_, ?_⟩
  · intro l
    rw [updateParticles_eq]
    calc ((( l.map advanceParticle).filter _).map frozenFields).Sublist
          ((l.map advanceParticle).map frozenFields) :=
        List.Sublist.map frozenFields (List.filter_sublist _)
      _ = l.map frozenFields := by
        rw [List.map_map]
        rfl
  · intro l q hq
    rw [updateParticles_eq] at hq
    have hq' := List.mem_of_mem_filter hq
    obtain ⟨p, hp, rfl⟩ := List.mem_map.mp hq'
    refine ⟨p, hp, ?_, ?_, ?_, ?_, ?_, ?_, ?_, ?_, ?_, ?_, ?_, ?_⟩ <;> rfl

/-- A concrete particle used in witnesses. -/
def sampleParticle : Particle :=
  { id := 0, x := 3, y := 4, text := "BÓ", vx := 1, vy := -5, rotation := 0,
    vRotation := 2, scale := 2, color := "text-pink-500", life := 1,
    decay := 1/50 }

/-- Witness for C10 at a concrete input: the single survivor of a one-particle
tick originates from that particle with the stated field changes. -/
theorem updateParticles_frame_effect_witness :
    ∃ p ∈ [sampleParticle], (advanceParticle sampleParticle).id = p.id ∧
      (advanceParticle sampleParticle).text = p.text ∧
      (advanceParticle sampleParticle).vx = p.vx ∧
      (advanceParticle sampleParticle).vRotation = p.vRotation ∧
      (advanceParticle sampleParticle).scale = p.scale ∧
      (advanceParticle sampleParticle).color = p.color ∧
      (advanceParticle sampleParticle).decay = p.decay ∧
      (advanceParticle sampleParticle).x = p.x + p.vx ∧
      (advanceParticle sampleParticle).y = p.y + p.vy ∧
      (advanceParticle sampleParticle).vy = p.vy + 1/2 ∧
      (advanceParticle sampleParticle).rotation = p.rotation + p.vRotation ∧
      (advanceParticle sampleParticle).life = p.life - p.decay :=
  updateParticles_frame_effect.2.2 [sampleParticle] (advanceParticle sampleParticle)
    (by
      simp only [updateParticles, advanceParticle, sampleParticle]
      norm_num
      unfold advanceParticle
      norm_num)

/-- Life and decay of a particle after `n` ticks of the advance step. -/
theorem advanceParticle_iterate (p : Particle) (n : ℕ) :
    (advanceParticle^[n] p).life = p.life - n * p.decay ∧
    (advanceParticle^[n] p).decay = p.decay := by
  induction n with
  | zero => simp
  | succ n ih =>
    rw [Function.iterate_succ_apply', advanceParticle]
    refine ⟨?_, ih.2⟩
    rw [ih.1, ih.2]
    push_cast
    ring

/-- C8: a particle with life 1 and decay 1/50 (= 0.02) survives ticks 1
through 49 — each of those ticks keeps it in the population with positive
life — and tick 50, the first tick at which its life reaches ≤ 0, removes it. -/
theorem particle_retired_at_tick_50 :
    (∀ n : ℕ, 1 ≤ n → n ≤ 49 →
      0 < (advanceParticle^[n] sampleParticle).life ∧
      updateParticles [advanceParticle^[n - 1] sampleParticle] =
        [advanceParticle^[n] sampleParticle]) ∧
    (advanceParticle^[50] sampleParticle).life ≤ 0 ∧
    updateParticles [advanceParticle^[49] sampleParticle] = [] := by
  have hlife : ∀ n : ℕ, (advanceParticle^[n] sampleParticle).life = 1 - n * (1/50) := by
    intro n
    rw [(advanceParticle_iterate sampleParticle n).1]
    rfl
  have hstep : ∀ n : ℕ, 1 ≤ n →
      advanceParticle (advanceParticle^[n - 1] sampleParticle) =
        advanceParticle^[n] sampleParticle := by
    intro n h1
    conv_rhs => rw [show n = (n - 1) + 1 by omega]
    rw [Function.iterate_succ_apply']
  refine ⟨?_, ?_, ?_⟩
  · intro n h1 h49
    have hn : (n : ℚ) ≤ 49 := by exact_mod_cast h49
    have hpos : 0 < (advanceParticle^[n] sampleParticle).life := by
      rw [hlife n]
      linarith
    refine ⟨hpos, ?_⟩
    unfold updateParticles
    rw [if_neg (by simp)]
    simp [hstep n h1, hpos]
  · rw [hlife 50]
    norm_num
  · have hdead : ¬ (0 < (advanceParticle^[50] sampleParticle).life) := by
      rw [hlife 50]
      norm_num
    have h50 : advanceParticle (advanceParticle^[49] sampleParticle) =
        advanceParticle^[50] sampleParticle := hstep 50 (by norm_num)
    unfold updateParticles
    rw [if_neg (by simp), List.map_cons, List.map_nil, h50, List.filter_cons,
      decide_eq_false hdead]
    rfl

/-- Witness for C8 at a concrete tick: after tick 10 the particle is alive and
was kept by that tick. -/
theorem particle_retired_at_tick_50_witness :
    0 < (advanceParticle^[10] sampleParticle).life ∧
    updateParticles [advanceParticle^[10 - 1] sampleParticle] =
      [advanceParticle^[10] sampleParticle] :=
  particle_retired_at_tick_50.1 10 (by norm_num) (by norm_num)

/-! ## Particle spawning in `triggerBo` (src/App.tsx lines 53–80) -/

/-- The random draws consumed when constructing one particle in `triggerBo`
(src/App.tsx lines 58–75): origin jitter, the velocity vector obtained from a
random angle and magnitude through Math.cos/Math.sin, rotation, angular
velocity, scale, a palette color, and the decay draw. The draws are abstracted
as an oracle: Math.random is nondeterministic and Math.cos/Math.sin are not
rational-valued, and no claim depends on the sampled values. -/
structure ParticleDraws where
  startX : ℚ
  startY : ℚ
  vx : ℚ
  vyBase : ℚ
  rotation : ℚ
  vRotation : ℚ
  scale : ℚ
  color : String
  decayDraw : ℚ

/-- One particle built in the inner loop of `triggerBo` (src/App.tsx lines
63–76): text "BÓ", the −5 upward burst on vy, life 1.0 and
decay = 0.01 + draw · 0.02 are literal; the random attributes come from the
oracle. -/
def mkBoParticle (idv : ℕ) (d : ParticleDraws) : Particle :=
  { id := idv, x := d.startX, y := d.startY, text := "BÓ", vx := d.vx,
    vy := d.vyBase - 5, rotation := d.rotation, vRotation := d.vRotation,
    scale := d.scale, color := d.color, life := 1,
    decay := 1/100 + d.decayDraw * (2/100) }

/-- The particle-spawning part of `triggerBo` (src/App.tsx lines 53–80): the
outer loop runs `count` times; each iteration computes
`particleCount = 5 + Math.min(gameState.combo, 10)` from the combo captured by
the callback closure — the pre-update combo — and runs the inner loop that
many times (zero times if the computed count is not positive, as a JS `for`
loop would). -/
def triggerBoParticles (count : ℕ) (combo : ℤ) (idStart : ℕ)
    (draws : ℕ → ParticleDraws) : List Particle :=
  (List.range count).flatMap (fun i =>
    let particleCount := (5 + min combo 10).toNat
    (List.range particleCount).map (fun j =>
      mkBoParticle (idStart + i * particleCount + j) (draws (i * particleCount + j))))

/-- C4: a trigger call with `count` match occurrences and pre-update combo ≥ 1
spawns exactly count * (5 + min(previousCombo, 10)) particles. -/
theorem triggerBo_spawn_count (count : ℕ) (combo : ℤ) (idStart : ℕ)
    (draws : ℕ → ParticleDraws) (hcombo : 1 ≤ combo) :
    (triggerBoParticles count combo idStart draws).length =
      count * (5 + (min combo 10).toNat) := by
  unfold triggerBoParticles
  induction count with
  | zero => simp
  | succ n ih =>
    rw [List.range_succ, List.flatMap_append, List.length_append, ih]
    simp only [List.flatMap_cons, List.flatMap_nil, List.append_nil, List.length_map,
      List.length_range]
    have h5 : (5 + min combo 10).toNat = 5 + (min combo 10).toNat := by omega
    rw [h5]
    ring

/-- A constant oracle used in witnesses. -/
def constDraws : ℕ → ParticleDraws :=
  fun _ => ⟨0, 0, 3, 4, 0, 1, 2, "text-pink-500", 1/2⟩

/-- Witness for C4 at a concrete input: 2 matches with pre-update combo 3
spawn 2 * (5 + 3) = 16 particles. -/
theorem triggerBo_spawn_count_witness :
    (triggerBoParticles 2 3 0 constDraws).length = 2 * (5 + (min (3 : ℤ) 10).toNat) :=
  triggerBo_spawn_count 2 3 0 constDraws (by norm_num)

/-! ## Audio resampling and PCM encoding (src/types.ts, `utils/audio` module) -/

/-- `downsampleTo16k` (utils/audio lines 36–58): identity at 16000 Hz,
otherwise linear interpolation at source positions `i * ratio` for
`i < ceil(length / ratio)`. Samples are exact rationals; `buffer[idx] || 0`
is modelled by `List.getD _ _ 0`. The sample rate is a positive integer; on a
zero rate the JS code would throw while allocating a Float32Array of Infinity
length, and the claims exclude it. -/
def downsampleTo16k (buffer : List ℚ) (inputSampleRate : ℕ) : List ℚ :=
  if inputSampleRate = 16000 then buffer
  else
    let ratio : ℚ := (inputSampleRate : ℚ) / 16000
    let newLength : ℕ := (⌈(buffer.length : ℚ) / ratio⌉).toNat
    (List.range newLength).map (fun (i : ℕ) =>
      let originalIndex : ℚ := (i : ℚ) * ratio
      let index1 : ℤ := ⌊originalIndex⌋
      let index2 : ℤ := min ⌈originalIndex⌉ ((buffer.length : ℤ) - 1)
      let t : ℚ := originalIndex - index1
      let p1 : ℚ := buffer.getD index1.toNat 0
      let p2 : ℚ := buffer.getD index2.toNat 0
      p1 * (1 - t) + p2 * t)

/-- Truncation toward zero, the first half of the conversion JavaScript
applies when storing a number into an Int16Array slot. -/
def truncTowardZero (q : ℚ) : ℤ :=
  if q < 0 then ⌈q⌉ else ⌊q⌋

/-- The wrap into [-2^15, 2^15) that completes JavaScript's ToInt16. -/
def toInt16 (n : ℤ) : ℤ :=
  (n + 32768) % 65536 - 32768

/-- The per-sample conversion in `createPcmBlob` (utils/audio lines 69–73):
clamp to [-1, 1] with `Math.max(-1, Math.min(1, ·))`, scale negatives by
0x8000 and non-negatives by 0x7FFF, store into an Int16Array slot. -/
def quantizeSample (sample : ℚ) : ℤ :=
  let s : ℚ := max (-1) (min 1 sample)
  toInt16 (truncTowardZero (if s < 0 then s * 32768 else s * 32767))

/-- Little-endian byte pair of one stored 16-bit sample, as read back from
the Int16Array buffer by `new Uint8Array(int16.buffer)`. -/
def int16Bytes (n : ℤ) : List ℕ :=
  [(n % 65536).toNat % 256, (n % 65536).toNat / 256]

/-- The byte sequence `createPcmBlob` (utils/audio lines 64–79) feeds to the
base64 encoder: downsample, quantize each sample, serialize little-endian. -/
def createPcmBytes (data : List ℚ) (inputSampleRate : ℕ) : List ℕ :=
  ((downsampleTo16k data inputSampleRate).map quantizeSample).flatMap int16Bytes

theorem length_flatMap_int16Bytes (l : List ℤ) :
    (l.flatMap int16Bytes).length = 2 * l.length := by
  induction l with
  | nil => rfl
  | cons a l ih =>
    rw [List.flatMap_cons, List.length_append, ih]
    simp [int16Bytes]
    omega

/-- C2: encoding at source rate exactly 16000 Hz passes the samples through
unchanged before quantization; at any other positive source rate the
resampled sample count is ceil(inputLength * 16000 / inputRate); and the PCM
byte sequence (before base64) is 2 bytes per resampled sample. -/
theorem encode_identity_length_bytes (buffer : List ℚ) (inputSampleRate : ℕ) :
    downsampleTo16k buffer 16000 = buffer ∧
    (inputSampleRate ≠ 16000 → 0 < inputSampleRate →
      (downsampleTo16k buffer inputSampleRate).length =
        (⌈((buffer.length : ℚ) * 16000) / (inputSampleRate : ℚ)⌉).toNat) ∧
    (createPcmBytes buffer inputSampleRate).length =
      2 * (downsampleTo16k buffer inputSampleRate).length := by
  refine ⟨by simp [downsampleTo16k], ?_, ?_⟩
  · intro hne hpos
    unfold downsampleTo16k
    rw [if_neg hne]
    dsimp only
    rw [List.length_map, List.length_range, div_div_eq_mul_div]
  · unfold createPcmBytes
    rw [length_flatMap_int16Bytes, List.length_map]

/-- Witness for C2 at a concrete input: a 3-sample frame at 48000 Hz resamples
to ceil(3 * 16000 / 48000) = 1 sample. -/
theorem encode_identity_length_bytes_witness :
    (downsampleTo16k [1/2, -1/2, 1/4] 48000).length =
      (⌈((([1/2, -1/2, 1/4] : List ℚ).length : ℚ) * 16000) / ((48000 : ℕ) : ℚ)⌉).toNat :=
  (encode_identity_length_bytes [1/2, -1/2, 1/4] 48000).2.1 (by norm_num) (by norm_num)

theorem toInt16_eq_self {n : ℤ} (h1 : -32768 ≤ n) (h2 : n ≤ 32767) :
    toInt16 n = n := by
  unfold toInt16
  rw [Int.emod_eq_of_lt (by omega) (by omega)]
  omega

/-- C7: every sample is clamped to [-1, 1] before 16-bit conversion, clamped
negatives are scaled by 32768 and non-negatives by 32767 with a truncating
multiply (no wraparound occurs), and every integer produced for any input
frame lies in the signed 16-bit range [-32768, 32767]. -/
theorem pcm_quantization_clamped_in_range :
    (∀ sample : ℚ,
      quantizeSample sample =
        truncTowardZero
          (if max (-1) (min 1 sample) < 0 then max (-1) (min 1 sample) * 32768
           else max (-1) (min 1 sample) * 32767) ∧
      -32768 ≤ quantizeSample sample ∧ quantizeSample sample ≤ 32767) ∧
    (∀ (data : List ℚ) (rate : ℕ) (b : ℤ),
      b ∈ (downsampleTo16k data rate).map quantizeSample →
      -32768 ≤ b ∧ b ≤ 32767) := by
  have bounds : ∀ sample : ℚ,
      -32768 ≤ truncTowardZero
          (if max (-1) (min 1 sample) < 0 then max (-1) (min 1 sample) * 32768
           else max (-1) (min 1 sample) * 32767) ∧
      truncTowardZero
          (if max (-1) (min 1 sample) < 0 then max (-1) (min 1 sample) * 32768
           else max (-1) (min 1 sample) * 32767) ≤ 32767 := by
    intro sample
    have hcl : (-1 : ℚ) ≤ max (-1) (min 1 sample) := le_max_left _ _
    have hcu : max (-1) (min 1 sample) ≤ 1 := max_le (by norm_num) (min_le_left _ _)
    by_cases h : max (-1) (min 1 sample) < 0
    · rw [if_pos h]
      unfold truncTowardZero
      have hx : max (-1) (min 1 sample) * 32768 < 0 := by nlinarith
      rw [if_pos hx]
      constructor
      · refine Int.le_ceil_iff.mpr ?_
        push_cast
        nlinarith
      · refine Int.ceil_le.mpr ?_
        push_cast
        nlinarith
    · rw [if_neg h]
      unfold truncTowardZero
      have hx : ¬ (max (-1) (min 1 sample) * 32767 < 0) := by
        push_neg at h ⊢
        nlinarith
      rw [if_neg hx]
      constructor
      · refine Int.le_floor.mpr ?_
        push_cast
        push_neg at h
        nlinarith
      · refine Int.floor_le_iff.mpr ?_
        push_cast
        nlinarith
  have eqn : ∀ sample : ℚ,
      quantizeSample sample =
        truncTowardZero
          (if max (-1) (min 1 sample) < 0 then max (-1) (min 1 sample) * 32768
           else max (-1) (min 1 sample) * 32767) := by
    intro sample
    unfold quantizeSample
    exact toInt16_eq_self (bounds sample).1 (bounds sample).2
  refine ⟨fun sample => ⟨eqn sample, ?_, ?_⟩, ?_⟩
  · rw [eqn sample]; exact (bounds sample).1
  · rw [eqn sample]; exact (bounds sample).2
  · intro data rate b hb
    obtain ⟨s, _, rfl⟩ := List.mem_map.mp hb
    rw [eqn s]
    exact bounds s

/-- Witness for C7 at a concrete input: the single byte-pair source value of
the frame [2] at 16000 Hz is within the signed 16-bit range. -/
theorem pcm_quantization_clamped_in_range_witness :
    -32768 ≤ quantizeSample 2 ∧ quantizeSample 2 ≤ 32767 :=
  pcm_quantization_clamped_in_range.2 [2] 16000 (quantizeSample 2)
    (by simp [downsampleTo16k])

/-! ## Keyword spotter (src/App.tsx line 9 BO_REGEX, lines 145–155)

The regex is /\b(bó|bo|bow|ball|boy|bough|paul|bof)\b/gi and the match count
consumed by onmessage is transcription.match(BO_REGEX).length (0 when the
result is null). ECMAScript semantics without the u flag: the \b assertion is
based on the ASCII word characters [A-Za-z0-9_] only, alternatives are tried
in source order, the i flag canonicalizes through toUpperCase, and a global
match scans left to right resuming after each match. -/

/-- ECMAScript word characters, the basis of the regex \b assertion: ASCII
letters, digits and underscore, regardless of flags. -/
def isWordChar (c : Char) : Bool :=
  ('a' ≤ c && c ≤ 'z') || ('A' ≤ c && c ≤ 'Z') || ('0' ≤ c && c ≤ '9') || c == '_'

/-- ECMAScript case canonicalization for a regex with the i flag and no u
flag: the character is mapped through toUpperCase. Char.toUpper in Lean maps
only ASCII, so the single non-ASCII pattern character ó is mapped
explicitly. -/
def canonJS (c : Char) : Char :=
  if c = 'ó' then 'Ó' else c.toUpper

/-- The alternatives of BO_REGEX in source order. -/
def boAlternatives : List (List Char) :=
  [['b', 'ó'], ['b', 'o'], ['b', 'o', 'w'], ['b', 'a', 'l', 'l'],
   ['b', 'o', 'y'], ['b', 'o', 'u', 'g', 'h'], ['p', 'a', 'u', 'l'],
   ['b', 'o', 'f']]

/-- The \b assertion at position i of s: exactly one of the two neighbouring
characters is a word character; positions outside the string count as
non-word (the default ' ' is a non-word character). -/
def wordBoundary (s : List Char) (i : ℕ) : Bool :=
  (if i = 0 then false else isWordChar (s.getD (i - 1) ' ')) !=
    isWordChar (s.getD i ' ')

/-- Case-insensitive match of a literal pattern against the front of a
character sequence. -/
def litMatch : List Char → List Char → Bool
  | [], _ => true
  | _ :: _, [] => false
  | p :: ps, c :: cs => (canonJS p == canonJS c) && litMatch ps cs

/-- The length of the BO_REGEX match at position i of s, if any: the leading
\b must hold, the alternatives are tried in source order, and each
alternative must be followed by a position where the trailing \b holds. -/
def boMatchLenAt (s : List Char) (i : ℕ) : Option ℕ :=
  if wordBoundary s i then
    (boAlternatives.find? (fun alt =>
      litMatch alt (s.drop i) && wordBoundary s (i + alt.length))).map List.length
  else none

/-- The global scan of String.prototype.match: count the leftmost match,
resume right after it, otherwise advance one position. Fuel decreases every
step; length + 1 steps suffice since the position advances by at least one. -/
def countMatchesFrom (s : List Char) : ℕ → ℕ → ℕ
  | 0, _ => 0
  | fuel + 1, i =>
    if s.length ≤ i then 0
    else
      match boMatchLenAt s i with
      | some len => 1 + countMatchesFrom s fuel (i + len)
      | none => countMatchesFrom s fuel (i + 1)

/-- The number of BO_REGEX matches that onmessage extracts from a
transcription (src/App.tsx lines 145–155); a null match result means 0 and
triggerBo is not called. -/
def boMatchCount (s : String) : ℕ :=
  countMatchesFrom s.data (s.data.length + 1) 0

/-- C3, evaluated on the code: the input "bó bó bó" yields 0 matches — not 3
as the spec claims — because the trailing \b of BO_REGEX can never hold after
the non-ASCII character ó (a non-word character for ECMAScript \b) when the
next character is a space or the end of the string. The ASCII variants do
match ("bo bo bo" yields 3) and trigger-free text yields 0. -/
theorem boRegex_match_counts :
    boMatchCount "bó bó bó" = 0 ∧
    boMatchCount "bo bo bo" = 3 ∧
    boMatchCount "hello world" = 0 := by
  decide
